import Mathlib

/-!
# Verification of the EOHFPGA dashboard data layer

Shallow embedding of `src/js/dashboard/data.js` (the Monte-Carlo data
acquisition and statistics core) and proofs of the specification claims.

Modelling conventions:
* JS numbers are modelled by an arbitrary `LinearOrderedField` with a
  `FloorRing` structure; decidable claims are settled at `ℚ`, analytic ones
  (Box–Muller, `Math.exp`) at `ℝ`.  The index expressions
  `Math.floor(0.02*N)`, `Math.floor(0.05*N)`, `Math.floor(0.98*N)` are
  modelled exactly as `2*N/100`, `5*N/100`, `98*N/100` in `ℕ`.
* `Math.round x` is `⌊x + 1/2⌋` (JS rounds half towards `+∞`).
* `parseFloat(x.toFixed(d))` is `⌊x * 10^d + 1/2⌋ / 10^d` (ECMAScript
  `toFixed` picks the closer integer numerator, the larger one on ties).
* `Math.random()` streams are explicit parameters `ℕ → α`; a call that
  draws `k` random numbers consumes indices `0, …, k-1` of the stream.
* When the histogram bin width is zero, JS computes `(p - trimLow)/0`,
  giving `NaN` (or `Infinity`); `fpgaCounts[NaN]++` touches none of the 24
  counters.  The embedding models this by an explicit `Option` index that
  is `none` in that case.
* `computeStatsFromPaths` reads `paths[0].length`; it is only ever called
  on non-empty ensembles, and the embedding uses `paths.headD []`.
-/

namespace EOHFPGA

variable {α : Type} [LinearOrderedField α] [FloorRing α]

/-- JS `Math.round`: round half towards `+∞`. -/
def jsRound (x : α) : ℤ := ⌊x + 1/2⌋

/-- JS `parseFloat(x.toFixed(d))`: decimal rounding to `d` places, half up. -/
def jsToFixed (d : ℕ) (x : α) : α := (⌊x * 10 ^ d + 1/2⌋ : ℤ) / 10 ^ d

/-! ## Statistics Engine: `computeStatsFromPaths` (data.js lines 19–103) -/

/-- JS `const finalPrices = paths.map(p => p[p.length - 1])`. -/
def finalPrices (paths : List (List α)) : List α := paths.map (fun p => p.getLastD 0)

/-- JS `const days = paths[0].length`. -/
def ensembleDays (paths : List (List α)) : ℕ := (paths.headD []).length

/-- JS `const sorted = [...finalPrices].sort((a, b) => a - b)`: ascending sort. -/
def sortedFinals (paths : List (List α)) : List α :=
  List.insertionSort (· ≤ ·) (finalPrices paths)

/-- JS `sorted[Math.floor(0.02 * sorted.length)]`. -/
def trimLowVal (paths : List (List α)) : α :=
  (sortedFinals paths).getD (2 * (sortedFinals paths).length / 100) 0

/-- JS `sorted[Math.floor(0.98 * sorted.length)]`. -/
def trimHighVal (paths : List (List α)) : α :=
  (sortedFinals paths).getD (98 * (sortedFinals paths).length / 100) 0

/-- JS `const binWidth = (trimHigh - trimLow) / binCount` with `binCount = 24`. -/
def binWidthVal (paths : List (List α)) : α :=
  (trimHighVal paths - trimLowVal paths) / 24

/-- JS `binEdges[i] = parseFloat((trimLow + i * binWidth).toFixed(2))`. -/
def binEdgesVal (paths : List (List α)) : List α :=
  (List.range 25).map (fun i => jsToFixed 2 (trimLowVal paths + (i : α) * binWidthVal paths))

/-- The histogram slot a final price is counted into, if any: the loop body
`if (p < trimLow || p > trimHigh) continue;
 const idx = Math.min(Math.floor((p - trimLow) / binWidth), binCount - 1);
 fpgaCounts[idx]++;`.
With `binWidth = 0` JS computes `0/0 = NaN` and `fpgaCounts[NaN]++`
increments none of the 24 counters, hence `none` in that case. -/
def binIndex (paths : List (List α)) (p : α) : Option ℕ :=
  if p < trimLowVal paths ∨ trimHighVal paths < p then none
  else if binWidthVal paths = 0 then none
  else some ((min ⌊(p - trimLowVal paths) / binWidthVal paths⌋ 23).toNat)

/-- JS `fpgaCounts`: per-bin counts of trimmed-range final prices. -/
def fpgaCountsVal (paths : List (List α)) : List ℕ :=
  (List.range 24).map
    (fun i => ((finalPrices paths).filter (fun p => decide (binIndex paths p = some i))).length)

/-- One entry of `cpuCounts`:
`Math.max(0, c + Math.round((Math.random() - 0.5) * c * 0.04))`. -/
def jitterCount (r : α) (c : ℕ) : ℕ :=
  ((c : ℤ) + jsRound ((r - 1/2) * (c : α) * (4/100))).toNat

/-- JS `cpuCounts = fpgaCounts.map(c => Math.max(0, c + Math.round((Math.random() - 0.5) * c * 0.04)))`,
one fresh random draw per bin, in bin order. -/
def cpuCountsVal (paths : List (List α)) (rng : ℕ → α) : List ℕ :=
  (List.range 24).map
    (fun i => jitterCount (rng i)
      ((((finalPrices paths)).filter (fun p => decide (binIndex paths p = some i))).length))

/-- JS `const var95 = sorted[Math.floor(0.05 * sorted.length)]`. -/
def var95Val (paths : List (List α)) : α :=
  (sortedFinals paths).getD (5 * (sortedFinals paths).length / 100) 0

/-- JS `const cvarValues = sorted.filter(p => p <= var95)`. -/
def cvarValuesVal (paths : List (List α)) : List α :=
  (sortedFinals paths).filter (fun p => decide (p ≤ var95Val paths))

/-- JS `cvar95 = cvarValues.length > 0 ? mean(cvarValues) : var95`. -/
def cvar95Val (paths : List (List α)) : α :=
  if 0 < (cvarValuesVal paths).length then
    (cvarValuesVal paths).sum / ((cvarValuesVal paths).length : α)
  else var95Val paths

/-- Per-path max consecutive steps below `S0` (data.js lines 26–38):
scan `d = 1 .. days-1`, increment a counter while `paths[i][d] < startPrice`
(an out-of-range read gives `undefined`, and `undefined < startPrice` is
false), reset otherwise, track the maximum.  State is `(maxDD, currentDD)`. -/
def maxDDRun (startPrice : α) (days : ℕ) (p : List α) : ℕ :=
  ((List.range' 1 (days - 1)).foldl
    (fun (acc : ℕ × ℕ) d =>
      match p[d]? with
      | some x => if x < startPrice then (max acc.1 (acc.2 + 1), acc.2 + 1) else (acc.1, 0)
      | none => (acc.1, 0))
    (0, 0)).1

/-- JS `const maxDrawdowns = …` for the whole ensemble. -/
def maxDrawdownsVal (paths : List (List α)) (startPrice : α) : List ℕ :=
  paths.map (maxDDRun startPrice (ensembleDays paths))

/-- JS `const ddStep = Math.max(1, Math.floor(maxStep / 5))` with `maxStep = days - 1`. -/
def ddStepVal (days : ℕ) : ℕ := max 1 ((days - 1) / 5)

/-- JS `ddBinEdges`: the five drawdown buckets `[lo, hi)`, `hi = none` meaning `∞`. -/
def ddBinEdgesVal (days : ℕ) : List (ℕ × Option ℕ) :=
  (List.range 5).map
    (fun i => (i * ddStepVal days, if i = 4 then none else some ((i + 1) * ddStepVal days)))

/-- JS `ddLabels`: `"lo-hid"` for the first four buckets, `"lod+"` for the last. -/
def ddLabelsVal (days : ℕ) : List String :=
  (List.range 5).map
    (fun i =>
      if i = 4 then toString (i * ddStepVal days) ++ "d+"
      else toString (i * ddStepVal days) ++ "-" ++ toString ((i + 1) * ddStepVal days) ++ "d")

/-- Bucket membership test `dd >= lo && dd < hi` (with `dd < Infinity` true). -/
def inDDBucket (b : ℕ × Option ℕ) (dd : ℕ) : Bool :=
  decide (b.1 ≤ dd) && (match b.2 with | some h => decide (dd < h) | none => true)

/-- JS `ddCounts = ddBinEdges.map(([lo, hi]) => maxDrawdowns.filter(dd => dd >= lo && dd < hi).length)`. -/
def ddCountsVal (paths : List (List α)) (startPrice : α) : List ℕ :=
  (ddBinEdgesVal (ensembleDays paths)).map
    (fun b => ((maxDrawdownsVal paths startPrice).filter (inDDBucket b)).length)

structure RiskStatistics (α : Type) where
  value_at_risk_95 : α
  conditional_value_at_risk_95 : α
  probability_of_profit : α
  average_drawdown_days : α
deriving DecidableEq

structure HistogramData (α : Type) where
  bin_edges : List α
  fpga_counts : List ℕ
  cpu_counts : List ℕ
deriving DecidableEq

structure DrawdownDistribution where
  bin_edges : List String
  counts : List ℕ
deriving DecidableEq

/-- The record returned by `computeStatsFromPaths`. -/
structure StatsBundle (α : Type) where
  risk_statistics : RiskStatistics α
  histogram_data : HistogramData α
  drawdown_distribution : DrawdownDistribution
deriving DecidableEq

/-- JS `computeStatsFromPaths(paths, startPrice)` (data.js lines 19–103).
`rng` is the `Math.random` stream; the call draws 24 values (one per
`cpuCounts` bin). -/
def computeStatsFromPaths (paths : List (List α)) (startPrice : α) (rng : ℕ → α) :
    StatsBundle α :=
  { risk_statistics :=
      { value_at_risk_95 := jsToFixed 2 (var95Val paths)
        conditional_value_at_risk_95 := jsToFixed 2 (cvar95Val paths)
        probability_of_profit :=
          jsToFixed 1
            ((((finalPrices paths).filter (fun p => decide (startPrice < p))).length : α)
              / (paths.length : α) * 100)
        average_drawdown_days :=
          ((jsRound (((maxDrawdownsVal paths startPrice).sum : α) / (paths.length : α)) : ℤ) : α) }
    histogram_data :=
      { bin_edges := binEdgesVal paths
        fpga_counts := fpgaCountsVal paths
        cpu_counts := cpuCountsVal paths rng }
    drawdown_distribution :=
      { bin_edges := ddLabelsVal (ensembleDays paths)
        counts := ddCountsVal paths startPrice } }

/-! ## Path Generator: `gaussRandom`, `generatePath` (data.js lines 195–212) -/

/-- JS `gaussRandom()` after its rejection loops: the Box–Muller transform
`Math.sqrt(-2.0 * Math.log(u)) * Math.cos(2.0 * Math.PI * v)` applied to
uniforms `u, v` already rejected at exact zero (the `while (u === 0)`
loops redraw until nonzero, so the arguments here are the accepted
values in `(0, 1]`). -/
noncomputable def gaussRandom (u v : ℝ) : ℝ :=
  Real.sqrt (-2 * Real.log u) * Real.cos (2 * Real.pi * v)

/-- Price at step `i` of `generatePath`: `path[0] = S0`,
`path[i] = path[i-1] * Math.exp(drift + vol * gaussRandom())`.
`expFn` models `Math.exp` (instantiated with `Real.exp` over `ℝ`) and
`Z i` is the standard-normal draw used at step `i`. -/
def pathPrice (expFn : α → α) (S0 drift vol : α) (Z : ℕ → α) : ℕ → α
  | 0 => S0
  | i + 1 => pathPrice expFn S0 drift vol Z i * expFn (drift + vol * Z (i + 1))

/-- JS `generatePath(S0, days, mu, sigma)` (data.js lines 202–212):
`dt = 1/252`, `drift = (mu - 0.5*sigma*sigma)*dt`, `vol = sigma*Math.sqrt(dt)`.
`sqrtFn` models `Math.sqrt`. -/
def generatePath (expFn sqrtFn : α → α) (S0 : α) (days : ℕ) (mu sigma : α)
    (Z : ℕ → α) : List α :=
  (List.range days).map
    (pathPrice expFn S0 ((mu - 1/2 * sigma * sigma) * (1/252)) (sigma * sqrtFn (1/252)) Z)

/-! ## Result shapes and the configuration table -/

structure Performance (α : Type) where
  fpga_time_ms : α
  cpu_time_ms : α
  speed_improvement_x : α
deriving DecidableEq

/-- The inner `simulation_results` object common to all three sources. -/
structure SimulationResults (α : Type) where
  ticker : String
  name : String
  start_price : α
  n_steps : ℕ
  performance : Performance α
  risk_statistics : RiskStatistics α
  histogram_data : HistogramData α
  drawdown_distribution : DrawdownDistribution
  price_paths : List (List α)
deriving DecidableEq

/-- The `{ simulation_results: … }` wrapper every source returns. -/
structure ApiResult (α : Type) where
  simulation_results : SimulationResults α
deriving DecidableEq

structure TickerConfig (α : Type) where
  price : α
  mu : α
  sigma : α
  name : String
deriving DecidableEq

/-- The `CONFIGS` table (data.js lines 214–219). -/
def CONFIGS (α : Type) [LinearOrderedField α] : String → Option (TickerConfig α)
  | "SPY" => some ⟨19017/100, 82/1000, 176/1000, "S&P 500 ETF"⟩
  | "AAPL" => some ⟨17850/100, 105/1000, 248/1000, "Apple Inc."⟩
  | "TSLA" => some ⟨24530/100, 125/1000, 552/1000, "Tesla Inc."⟩
  | "NVDA" => some ⟨87540/100, 148/1000, 395/1000, "NVIDIA Corp."⟩
  | _ => none

/-- JS `getTickerConfig` (data.js lines 287–289). -/
def getTickerConfig (ticker : String) : TickerConfig α :=
  (CONFIGS α ticker).getD ⟨19017/100, 82/1000, 176/1000, "S&P 500 ETF"⟩

def VIZ_SAMPLE_COUNT : ℕ := 35

/-! ## The three sources (data.js lines 110–253) -/

/-- Outcome of one `fetch`: transport failure (rejected promise) or a
response with an ok/not-ok status and a parsed JSON body. -/
inductive NetOutcome (β : Type) where
  | transportError
  | response (ok : Bool) (body : β)

/-- JSON body of a successful `/simulation-results` response: the fields
`fetchFull` reads off `d`. -/
structure RichPayload (α : Type) where
  ticker : String
  start_price : α
  n_steps : ℕ
  fpga_time_ms : α
  cpu_time_ms : α
  speed_improvement_x : α
  value_at_risk_95 : α
  conditional_value_at_risk_95 : α
  probability_of_profit : α
  average_drawdown_days : α
  histogram_bin_edges : List α
  histogram_fpga_counts : List ℕ
  histogram_cpu_counts : List ℕ
  drawdown_bin_edges : List String
  drawdown_counts : List ℕ
  sample_paths : List (List α)

/-- JSON body of a `/montecarlo-sample` response: `json.paths` may be
absent (`none`). -/
structure RawPayload (α : Type) where
  paths : Option (List (List α))

/-- The field renaming/reshaping `fetchFull` performs on a rich payload. -/
def normalizeRich (d : RichPayload α) : ApiResult α :=
  ⟨{ ticker := d.ticker
     name := d.ticker
     start_price := d.start_price
     n_steps := d.n_steps
     performance :=
       { fpga_time_ms := d.fpga_time_ms
         cpu_time_ms := d.cpu_time_ms
         speed_improvement_x := d.speed_improvement_x }
     risk_statistics :=
       { value_at_risk_95 := d.value_at_risk_95
         conditional_value_at_risk_95 := d.conditional_value_at_risk_95
         probability_of_profit := d.probability_of_profit
         average_drawdown_days := d.average_drawdown_days }
     histogram_data :=
       { bin_edges := d.histogram_bin_edges
         fpga_counts := d.histogram_fpga_counts
         cpu_counts := d.histogram_cpu_counts }
     drawdown_distribution :=
       { bin_edges := d.drawdown_bin_edges
         counts := d.drawdown_counts }
     price_paths := d.sample_paths }⟩

/-- JS `fetchFull` (data.js lines 110–145): throw on transport failure or
non-2xx status, otherwise reshape the payload — no recomputation. -/
def fetchFull (out : NetOutcome (RichPayload α)) : Except String (ApiResult α) :=
  match out with
  | .transportError => .error "TypeError: fetch failed"
  | .response ok d => if ok then .ok (normalizeRich d) else .error "status"

/-- The result `fetchRawPaths` builds once its checks pass
(data.js lines 167–188): stats computed client-side from the full path
array, `fpgaTime = Math.max(1, Math.round(apiTime))`,
`cpuTime = Math.round(fpgaTime * 15)`. -/
def rawSuccessResult (ticker : String) (allPaths : List (List α)) (apiTime : α)
    (rng : ℕ → α) : ApiResult α :=
  let startPrice := (allPaths.headD []).headD 0
  let vizPaths := allPaths.take VIZ_SAMPLE_COUNT
  let stats := computeStatsFromPaths allPaths startPrice rng
  let fpgaTime : ℤ := max 1 (jsRound apiTime)
  let cpuTime : ℤ := jsRound ((fpgaTime : α) * 15)
  ⟨{ ticker := ticker
     name := ticker
     start_price := startPrice
     n_steps := (allPaths.headD []).length
     performance :=
       { fpga_time_ms := (fpgaTime : α)
         cpu_time_ms := (cpuTime : α)
         speed_improvement_x := jsToFixed 1 ((cpuTime : α) / (fpgaTime : α)) }
     risk_statistics := stats.risk_statistics
     histogram_data := stats.histogram_data
     drawdown_distribution := stats.drawdown_distribution
     price_paths := vizPaths }⟩

/-- JS `fetchRawPaths` (data.js lines 152–189): throw on transport failure,
non-2xx status, missing/empty path list, or zero-length first path;
otherwise build the result client-side.  `apiTime` is the measured fetch
latency `performance.now() - t0`. -/
def fetchRawPaths (ticker : String) (out : NetOutcome (RawPayload α)) (apiTime : α)
    (rng : ℕ → α) : Except String (ApiResult α) :=
  match out with
  | .transportError => .error "TypeError: fetch failed"
  | .response ok body =>
    if ¬ok then .error "status"
    else
      match body.paths with
      | none => .error "Empty paths"
      | some allPaths =>
        if allPaths.length = 0 then .error "Empty paths"
        else if (allPaths.headD []).length = 0 then .error "Empty paths"
        else .ok (rawSuccessResult ticker allPaths apiTime rng)

/-- JS `generateMockData(ticker)` (data.js lines 221–253): unknown tickers
fall back to `CONFIGS.SPY`; 10000 synthetic GBM paths of 252 steps;
stats from the Statistics Engine; synthetic timings
`fpgaTime = 140 + Math.round(Math.random()*25)`,
`cpuTime = 2150 + Math.round(Math.random()*250)`.
`Z i` is the noise stream of path `i`, `rng` the `Math.random` stream of
the stats call, `r1 r2` the two timing draws. -/
def generateMockData (expFn sqrtFn : α → α) (Z : ℕ → ℕ → α) (rng : ℕ → α)
    (r1 r2 : α) (ticker : String) : ApiResult α :=
  let config := (CONFIGS α ticker).getD ⟨19017/100, 82/1000, 176/1000, "S&P 500 ETF"⟩
  let S0 := config.price
  let days : ℕ := 252
  let numPaths : ℕ := 10000
  let allPaths := (List.range numPaths).map
    (fun i => generatePath expFn sqrtFn S0 days config.mu config.sigma (Z i))
  let vizPaths := allPaths.take VIZ_SAMPLE_COUNT
  let stats := computeStatsFromPaths allPaths S0 rng
  let fpgaTime : ℤ := 140 + jsRound (r1 * 25)
  let cpuTime : ℤ := 2150 + jsRound (r2 * 250)
  ⟨{ ticker := ticker
     name := config.name
     start_price := S0
     n_steps := days
     performance :=
       { fpga_time_ms := (fpgaTime : α)
         cpu_time_ms := (cpuTime : α)
         speed_improvement_x := jsToFixed 1 ((cpuTime : α) / (fpgaTime : α)) }
     risk_statistics := stats.risk_statistics
     histogram_data := stats.histogram_data
     drawdown_distribution := stats.drawdown_distribution
     price_paths := vizPaths }⟩

/-- JS `fetchSimulationResults` (data.js lines 262–285): try the rich
endpoint, then the raw-paths endpoint, each failure caught and logged;
finally return mock data (the artificial `setTimeout` delay has no
data-flow effect and is not modelled). -/
def fetchSimulationResults (ticker : String) (rich : NetOutcome (RichPayload α))
    (raw : NetOutcome (RawPayload α)) (apiTime : α) (rng : ℕ → α)
    (expFn sqrtFn : α → α) (Z : ℕ → ℕ → α) (rngM : ℕ → α) (r1 r2 : α) :
    Except String (ApiResult α) :=
  match fetchFull rich with
  | .ok result => .ok result
  | .error _ =>
    match fetchRawPaths ticker raw apiTime rng with
    | .ok result => .ok result
    | .error _ => .ok (generateMockData expFn sqrtFn Z rngM r1 r2 ticker)

/-! ## Counting helper lemmas -/

lemma sum_map_zero {β : Type} (l : List β) : (l.map (fun _ => (0 : ℕ))).sum = 0 := by
  induction l with
  | nil => rfl
  | cons a l ih => simp [ih]

lemma sum_map_add {β : Type} (l : List β) (f g : β → ℕ) :
    (l.map (fun b => f b + g b)).sum = (l.map f).sum + (l.map g).sum := by
  induction l with
  | nil => rfl
  | cons a l ih => simp [ih]; omega

lemma sum_indicator_range (n j : ℕ) :
    ((List.range n).map (fun i => if j = i then (1 : ℕ) else 0)).sum
      = if j < n then 1 else 0 := by
  induction n with
  | zero => simp
  | succ n ih =>
    rw [List.range_succ, List.map_append, List.sum_append, ih]
    simp only [List.map_cons, List.map_nil, List.sum_cons, List.sum_nil, Nat.add_zero]
    by_cases h1 : j < n
    · have h2 : j ≠ n := Nat.ne_of_lt h1
      have h3 : j < n + 1 := Nat.lt_succ_of_lt h1
      simp [h1, h2, h3]
    · by_cases h2 : j = n
      · subst h2
        simp [h1]
      · have h3 : ¬j < n + 1 := by omega
        simp [h1, h2, h3]

/-- Counting a list by partitioning on the value of an index function `f`:
the per-slot counts over slots `0, …, n-1` add up to the number of
elements on which `f` is defined. -/
lemma sum_count_some {β : Type} (f : β → Option ℕ) (n : ℕ) (l : List β)
    (hb : ∀ p ∈ l, ∀ j, f p = some j → j < n) :
    ((List.range n).map (fun i => (l.filter (fun p => decide (f p = some i))).length)).sum
      = (l.filter (fun p => (f p).isSome)).length := by
  induction l with
  | nil => simp [sum_map_zero]
  | cons a l ih =>
    have hb' : ∀ p ∈ l, ∀ j, f p = some j → j < n := fun p hp => hb p (List.mem_cons_of_mem a hp)
    have hpt : ∀ i ∈ List.range n,
        ((a :: l).filter (fun p => decide (f p = some i))).length
          = (if f a = some i then 1 else 0)
            + (l.filter (fun p => decide (f p = some i))).length := by
      intro i _
      rw [List.filter_cons]
      by_cases h : f a = some i <;> simp [h] <;> omega
    rw [List.map_congr_left hpt, sum_map_add, ih hb']
    have hfc : ((a :: l).filter (fun p => (f p).isSome)).length
        = (if (f a).isSome then 1 else 0) + (l.filter (fun p => (f p).isSome)).length := by
      rw [List.filter_cons]
      by_cases h : (f a).isSome <;> simp [h] <;> omega
    rw [hfc]
    congr 1
    cases hfa : f a with
    | none => simp [sum_map_zero]
    | some j =>
      have hj : j < n := hb a (List.mem_cons_self a l) j hfa
      have hrw : ∀ i ∈ List.range n,
          (if some j = some i then (1 : ℕ) else 0) = if j = i then 1 else 0 := by
        intro i _
        simp
      rw [List.map_congr_left hrw, sum_indicator_range]
      simp [hj]

/-! ## Histogram structure lemmas -/

lemma binIndex_lt (paths : List (List α)) (p : α) (j : ℕ)
    (h : binIndex paths p = some j) : j < 24 := by
  unfold binIndex at h
  by_cases h1 : p < trimLowVal paths ∨ trimHighVal paths < p
  · rw [if_pos h1] at h
    exact absurd h (by simp)
  · rw [if_neg h1] at h
    by_cases h2 : binWidthVal paths = 0
    · rw [if_pos h2] at h
      exact absurd h (by simp)
    · rw [if_neg h2] at h
      have hj := Option.some.inj h
      subst hj
      have hm : ⌊(p - trimLowVal paths) / binWidthVal paths⌋ ⊓ 23 ≤ (23 : ℤ) :=
        min_le_right _ _
      have h3 : (⌊(p - trimLowVal paths) / binWidthVal paths⌋ ⊓ 23).toNat ≤ 23 := by
        rw [Int.toNat_le]
        exact le_trans hm (by norm_num)
      omega

lemma fpgaCounts_sum (paths : List (List α)) :
    (fpgaCountsVal paths).sum
      = ((finalPrices paths).filter (fun p => (binIndex paths p).isSome)).length :=
  sum_count_some _ 24 _ (fun p _ j h => binIndex_lt paths p j h)

lemma binIndex_isSome_iff (paths : List (List α)) (p : α)
    (hw : binWidthVal paths ≠ 0) :
    (binIndex paths p).isSome = true ↔ trimLowVal paths ≤ p ∧ p ≤ trimHighVal paths := by
  unfold binIndex
  by_cases h1 : p < trimLowVal paths ∨ trimHighVal paths < p
  · rw [if_pos h1]
    simp only [Option.isSome_none, Bool.false_eq_true, false_iff, not_and, not_le]
    rcases h1 with h | h
    · intro hL
      exact absurd hL (not_le.mpr h)
    · intro _
      exact h
  · rw [if_neg h1, if_neg hw]
    push_neg at h1
    simp only [Option.isSome_some, true_iff]
    exact ⟨h1.1, h1.2⟩

lemma binIndex_none_of_degenerate (paths : List (List α)) (p : α)
    (hw : binWidthVal paths = 0) : binIndex paths p = none := by
  unfold binIndex
  by_cases h1 : p < trimLowVal paths ∨ trimHighVal paths < p
  · rw [if_pos h1]
  · rw [if_neg h1, if_pos hw]

/-! ## Drawdown bucket lemmas -/

lemma ddStepVal_pos (days : ℕ) : 1 ≤ ddStepVal days := le_max_left _ _

lemma inDDBucket_some (lo hi dd : ℕ) :
    inDDBucket (lo, some hi) dd = (decide (lo ≤ dd) && decide (dd < hi)) := rfl

lemma inDDBucket_none (lo dd : ℕ) : inDDBucket (lo, none) dd = decide (lo ≤ dd) := by
  simp [inDDBucket]

lemma ddBinEdges_explicit (days : ℕ) :
    ddBinEdgesVal days
      = [(0, some (ddStepVal days)), (ddStepVal days, some (2 * ddStepVal days)),
         (2 * ddStepVal days, some (3 * ddStepVal days)),
         (3 * ddStepVal days, some (4 * ddStepVal days)), (4 * ddStepVal days, none)] := by
  simp [ddBinEdgesVal, List.range_succ]

lemma sum_ddBuckets (days : ℕ) (mdds : List ℕ) :
    ((ddBinEdgesVal days).map (fun b => (mdds.filter (inDDBucket b)).length)).sum
      = mdds.length := by
  induction mdds with
  | nil => simp
  | cons d rest ih =>
    have hpt : ∀ b ∈ ddBinEdgesVal days,
        ((d :: rest).filter (inDDBucket b)).length
          = (if inDDBucket b d then 1 else 0) + (rest.filter (inDDBucket b)).length := by
      intro b _
      rw [List.filter_cons]
      by_cases h : inDDBucket b d <;> simp [h] <;> omega
    rw [List.map_congr_left hpt, sum_map_add, ih]
    have hone : ((ddBinEdgesVal days).map (fun b => if inDDBucket b d then 1 else 0)).sum
        = 1 := by
      have hs := ddStepVal_pos days
      rw [ddBinEdges_explicit]
      simp only [List.map_cons, List.map_nil, List.sum_cons, List.sum_nil, inDDBucket_some,
        inDDBucket_none, Bool.and_eq_true, decide_eq_true_eq, Nat.zero_le, true_and,
        Nat.add_zero]
      split_ifs <;> omega
    rw [hone]
    simp [Nat.add_comm]

/-! ## Risk-statistics helper lemmas -/

lemma finalPrices_length (paths : List (List α)) :
    (finalPrices paths).length = paths.length := List.length_map _ _

lemma sortedFinals_length (paths : List (List α)) :
    (sortedFinals paths).length = paths.length := by
  rw [sortedFinals, List.length_insertionSort, finalPrices_length]

lemma sortedFinals_perm (paths : List (List α)) :
    List.Perm (sortedFinals paths) (finalPrices paths) := List.perm_insertionSort _ _

/-- The 5th-percentile element is itself `≤ var95`, so the CVaR tail set is
never empty for a non-empty ensemble. -/
lemma cvarValues_length_pos (paths : List (List α)) (h : paths ≠ []) :
    0 < (cvarValuesVal paths).length := by
  have hN : 0 < paths.length := List.length_pos.mpr h
  have hidx : 5 * (sortedFinals paths).length / 100 < (sortedFinals paths).length := by
    rw [sortedFinals_length]
    omega
  have hvar : var95Val paths ∈ sortedFinals paths := by
    rw [var95Val, List.getD_eq_getElem?_getD, List.getElem?_eq_getElem hidx]
    exact List.getElem_mem hidx
  have hmem : var95Val paths ∈ cvarValuesVal paths := by
    rw [cvarValuesVal]
    exact List.mem_filter.mpr ⟨hvar, by simp⟩
  exact List.length_pos.mpr (List.ne_nil_of_mem hmem)

/-- JS `Math.round` of an integer value is that integer. -/
lemma jsRound_intCast (m : ℤ) : jsRound ((m : α)) = m := by
  rw [jsRound, add_comm, Int.floor_add_int]
  have : ⌊(1/2 : α)⌋ = 0 := by
    rw [Int.floor_eq_zero_iff]
    constructor <;> norm_num
  rw [this, zero_add]

/-! ## Claim theorems -/

set_option maxRecDepth 1000000

/-- From the claim's words (refinement comparison for the CVaR clause):
"conditional_value_at_risk_95 equal to the mean of all elements at or below
that index (all elements with index ≤ floor(0.05*N)), or VaR95 itself if
that set is empty". -/
def cvarIndexBasedSpec (paths : List (List α)) : α :=
  let tail := (sortedFinals paths).take (5 * (sortedFinals paths).length / 100 + 1)
  if 0 < tail.length then tail.sum / (tail.length : α) else var95Val paths

/-- C2 (amended): `computeStatsFromPaths` is a pure function of the ensemble
and start price in every output component except the comparison (`cpu`)
count series: risk statistics, histogram bin edges, primary (`fpga`)
counts, and the drawdown distribution are bit-identical across two
invocations regardless of the `Math.random` draws consumed. -/
theorem computeStats_deterministic_except_comparison (paths : List (List α)) (s : α)
    (r1 r2 : ℕ → α) :
    (computeStatsFromPaths paths s r1).risk_statistics
        = (computeStatsFromPaths paths s r2).risk_statistics
    ∧ (computeStatsFromPaths paths s r1).histogram_data.bin_edges
        = (computeStatsFromPaths paths s r2).histogram_data.bin_edges
    ∧ (computeStatsFromPaths paths s r1).histogram_data.fpga_counts
        = (computeStatsFromPaths paths s r2).histogram_data.fpga_counts
    ∧ (computeStatsFromPaths paths s r1).drawdown_distribution
        = (computeStatsFromPaths paths s r2).drawdown_distribution :=
  ⟨rfl, rfl, rfl, rfl⟩

/-- C2 (counterexample): the comparison (`cpu`) count series is jittered
with fresh `Math.random` draws, so a second invocation of the Statistics
Engine on the same unmutated ensemble (consuming the next 24 draws of the
random stream) need not return bit-identical `HistogramData`: on a 30-path
ensemble with 26 finals in the first bin, draws of 0.5 vs 0.99 give
`cpu_counts[0] = 26` vs `27`. -/
theorem computeStats_comparison_series_not_invariant :
    (computeStatsFromPaths
        ((List.replicate 26 [100, 10] ++ List.replicate 4 [100, 34]) : List (List ℚ)) 100
        (fun i => if i < 24 then 1/2 else 99/100)).histogram_data.cpu_counts
      ≠ (computeStatsFromPaths
        ((List.replicate 26 [100, 10] ++ List.replicate 4 [100, 34]) : List (List ℚ)) 100
        (fun i => if i + 24 < 24 then 1/2 else 99/100)).histogram_data.cpu_counts := by
  with_unfolding_all decide

/-- C3 (amended): `value_at_risk_95` is the sorted final price at index
`floor(0.05*N)` (rounded to 2 decimals), and `conditional_value_at_risk_95`
is the mean of all final prices whose *value* is `≤ VaR95` — not the mean
of the elements with index `≤ floor(0.05*N)`; the two differ when
duplicates of the VaR value occur past that index.  The tail set is never
empty for a non-empty ensemble. -/
theorem var_cvar_value_based (paths : List (List α)) (s : α) (rng : ℕ → α)
    (h : paths ≠ []) :
    (computeStatsFromPaths paths s rng).risk_statistics.value_at_risk_95
        = jsToFixed 2 ((sortedFinals paths).getD (5 * (sortedFinals paths).length / 100) 0)
    ∧ (computeStatsFromPaths paths s rng).risk_statistics.conditional_value_at_risk_95
        = jsToFixed 2
            (((finalPrices paths).filter (fun p => decide (p ≤ var95Val paths))).sum
              / (((finalPrices paths).filter (fun p => decide (p ≤ var95Val paths))).length : α)) := by
  constructor
  · rfl
  · have hperm := List.Perm.filter (fun p => decide (p ≤ var95Val paths)) (sortedFinals_perm paths)
    show jsToFixed 2 (cvar95Val paths) = _
    rw [cvar95Val, if_pos (cvarValues_length_pos paths h), cvarValuesVal,
      hperm.sum_eq, hperm.length_eq]

theorem var_cvar_value_based_witness :
    ([[100, 90]] : List (List ℚ)) ≠ []
    ∧ (computeStatsFromPaths ([[100, 90]] : List (List ℚ)) 100
          (fun _ => 0)).risk_statistics.conditional_value_at_risk_95
        = jsToFixed 2
            (((finalPrices ([[100, 90]] : List (List ℚ))).filter
                (fun p => decide (p ≤ var95Val ([[100, 90]] : List (List ℚ))))).sum
              / (((finalPrices ([[100, 90]] : List (List ℚ))).filter
                  (fun p => decide (p ≤ var95Val ([[100, 90]] : List (List ℚ))))).length : ℚ)) :=
  ⟨by with_unfolding_all decide,
    (var_cvar_value_based ([[100, 90]] : List (List ℚ)) 100 (fun _ => 0)
      (by with_unfolding_all decide)).2⟩

/-- C3 (counterexample): on 20 paths with sorted finals
`[1, 2, 2, 3, 4, …, 19]`, `floor(0.05*20) = 1`, `VaR95 = 2`; the code's
value-filter tail is `[1, 2, 2]` (mean `5/3`, reported `1.67`) while the
claim's index set `{0, 1}` has mean `3/2` (reported `1.5`). -/
theorem cvar_index_based_counterexample :
    (computeStatsFromPaths
        (([[100, 1], [100, 2], [100, 2]]
          ++ (List.range 17).map (fun k => [100, (k : ℚ) + 3])) : List (List ℚ)) 100
        (fun _ => 0)).risk_statistics.conditional_value_at_risk_95 = 167/100
    ∧ jsToFixed 2 (cvarIndexBasedSpec
        (([[100, 1], [100, 2], [100, 2]]
          ++ (List.range 17).map (fun k => [100, (k : ℚ) + 3])) : List (List ℚ))) = 3/2
    ∧ (computeStatsFromPaths
        (([[100, 1], [100, 2], [100, 2]]
          ++ (List.range 17).map (fun k => [100, (k : ℚ) + 3])) : List (List ℚ)) 100
        (fun _ => 0)).risk_statistics.conditional_value_at_risk_95
      ≠ jsToFixed 2 (cvarIndexBasedSpec
        (([[100, 1], [100, 2], [100, 2]]
          ++ (List.range 17).map (fun k => [100, (k : ℚ) + 3])) : List (List ℚ))) := by
  with_unfolding_all decide

/-- C5: the drawdown distribution has exactly 5 buckets
`[i*ddStep, (i+1)*ddStep)` for `i = 0..3` plus the open-ended
`[4*ddStep, ∞)`, with `ddStep = max(1, floor((days-1)/5))`, and the bucket
counts sum to exactly `N`: the buckets partition `[0, ∞)` so every path's
max-drawdown-run lands in exactly one. -/
theorem drawdown_partition (paths : List (List α)) (s : α) (rng : ℕ → α) (days : ℕ)
    (hdays : ensembleDays paths = days) (h2 : 2 ≤ days) :
    (computeStatsFromPaths paths s rng).drawdown_distribution.counts.length = 5
    ∧ (computeStatsFromPaths paths s rng).drawdown_distribution.counts.sum = paths.length
    ∧ ddBinEdgesVal days
        = [(0, some (ddStepVal days)), (ddStepVal days, some (2 * ddStepVal days)),
           (2 * ddStepVal days, some (3 * ddStepVal days)),
           (3 * ddStepVal days, some (4 * ddStepVal days)), (4 * ddStepVal days, none)]
    ∧ ddStepVal days = max 1 ((days - 1) / 5) := by
  subst hdays
  have hc : (computeStatsFromPaths paths s rng).drawdown_distribution.counts
      = ddCountsVal paths s := rfl
  refine ⟨?_, ?_, ddBinEdges_explicit _, rfl⟩
  · rw [hc, ddCountsVal, List.length_map, ddBinEdgesVal, List.length_map, List.length_range]
  · rw [hc, ddCountsVal, sum_ddBuckets, maxDrawdownsVal, List.length_map]

theorem drawdown_partition_witness :
    2 ≤ 2
    ∧ (computeStatsFromPaths ([[100, 90], [100, 110]] : List (List ℚ)) 100
        (fun _ => 0)).drawdown_distribution.counts.sum = 2 :=
  ⟨by norm_num,
    (drawdown_partition ([[100, 90], [100, 110]] : List (List ℚ)) 100 (fun _ => 0) 2 rfl
      (by norm_num)).2.1⟩

/-- C6 (amended): the primary histogram counts are 24 bins whose sum is at
most `N`; prices outside the trimmed range `[sorted[floor(0.02N)],
sorted[floor(0.98N)]]` are counted in no bin; when the trimmed range is
non-degenerate (`trimLow < trimHigh`) the sum equals `N` exactly when no
final price lies outside the range, but when the range is degenerate
(`trimLow = trimHigh`, zero bin width) no price is counted at all and the
sum is 0 even though every final price lies within the range. -/
theorem histogram_trimmed_sum (paths : List (List α)) (s : α) (rng : ℕ → α) :
    (computeStatsFromPaths paths s rng).histogram_data.fpga_counts.length = 24
    ∧ (computeStatsFromPaths paths s rng).histogram_data.fpga_counts.sum ≤ paths.length
    ∧ (trimLowVal paths < trimHighVal paths →
        ((computeStatsFromPaths paths s rng).histogram_data.fpga_counts.sum = paths.length ↔
          ∀ p ∈ finalPrices paths, trimLowVal paths ≤ p ∧ p ≤ trimHighVal paths))
    ∧ (trimLowVal paths = trimHighVal paths →
        (computeStatsFromPaths paths s rng).histogram_data.fpga_counts.sum = 0) := by
  have hc : (computeStatsFromPaths paths s rng).histogram_data.fpga_counts
      = fpgaCountsVal paths := rfl
  refine ⟨?_, ?_, ?_, ?_⟩
  · rw [hc, fpgaCountsVal, List.length_map, List.length_range]
  · rw [hc, fpgaCounts_sum]
    calc ((finalPrices paths).filter _).length
        ≤ (finalPrices paths).length := List.length_filter_le _ _
      _ = paths.length := finalPrices_length paths
  · intro hlt
    have hw : binWidthVal paths ≠ 0 := by
      rw [binWidthVal]
      intro h0
      rcases div_eq_zero_iff.mp h0 with h | h
      · exact absurd (sub_eq_zero.mp h).symm (ne_of_lt hlt)
      · norm_num at h
    have hpred : ∀ p ∈ finalPrices paths,
        (binIndex paths p).isSome
          = decide (trimLowVal paths ≤ p ∧ p ≤ trimHighVal paths) := by
      intro p _
      apply Bool.eq_iff_iff.mpr
      rw [binIndex_isSome_iff paths p hw, decide_eq_true_eq]
    rw [hc, fpgaCounts_sum, List.filter_congr hpred, ← finalPrices_length paths,
      List.filter_length_eq_length]
    simp only [decide_eq_true_eq]
  · intro heq
    have hw : binWidthVal paths = 0 := by
      rw [binWidthVal, heq]
      simp
    have hnil : (finalPrices paths).filter (fun p => (binIndex paths p).isSome) = [] :=
      List.filter_eq_nil_iff.mpr
        (fun p _ => by rw [binIndex_none_of_degenerate paths p hw]; simp)
    rw [hc, fpgaCounts_sum, hnil]
    rfl

theorem histogram_trimmed_sum_witness :
    trimLowVal ([[100, 90], [100, 110]] : List (List ℚ))
        < trimHighVal ([[100, 90], [100, 110]] : List (List ℚ))
    ∧ (computeStatsFromPaths ([[100, 90], [100, 110]] : List (List ℚ)) 100
        (fun _ => 0)).histogram_data.fpga_counts.sum = 2 := by
  have h := histogram_trimmed_sum ([[100, 90], [100, 110]] : List (List ℚ)) 100 (fun _ => 0)
  have hlt : trimLowVal ([[100, 90], [100, 110]] : List (List ℚ))
      < trimHighVal ([[100, 90], [100, 110]] : List (List ℚ)) := by
    with_unfolding_all decide
  have hin : ∀ p ∈ finalPrices ([[100, 90], [100, 110]] : List (List ℚ)),
      trimLowVal ([[100, 90], [100, 110]] : List (List ℚ)) ≤ p
      ∧ p ≤ trimHighVal ([[100, 90], [100, 110]] : List (List ℚ)) := by
    with_unfolding_all decide
  exact ⟨hlt, (h.2.2.1 hlt).mpr hin⟩

/-- C6 (counterexample): on the single-path ensemble `[[50, 50]]` every
final price lies inside the trimmed range, yet the bin counts sum to 0,
not `N = 1` — the degenerate zero-width range defeats the claimed
equality condition. -/
theorem histogram_sum_equality_counterexample :
    (computeStatsFromPaths ([[50, 50]] : List (List ℚ)) 50
        (fun _ => 0)).histogram_data.fpga_counts.sum
      ≠ ([[50, 50]] : List (List ℚ)).length
    ∧ (∀ p ∈ finalPrices ([[50, 50]] : List (List ℚ)),
        trimLowVal ([[50, 50]] : List (List ℚ)) ≤ p
        ∧ p ≤ trimHighVal ([[50, 50]] : List (List ℚ))) := by
  with_unfolding_all decide

/-- C7 (amended): the max-drawdown-run scan over steps `1..days-1`
(increment while `price[t] < start_price`, reset otherwise, record the
maximum) gives per-path runs `[4, 0, 1]` on the 3-path scenario — the
first path's final price 95 is also below 100, extending its run to 4 —
and `probability_of_profit` is `66.7`. -/
theorem scenario_drawdown_runs_amended :
    maxDrawdownsVal
        ([[100, 90, 90, 90, 95], [100, 105, 110, 108, 112],
          [100, 99, 100, 100, 101]] : List (List ℚ)) 100 = [4, 0, 1]
    ∧ (computeStatsFromPaths
        ([[100, 90, 90, 90, 95], [100, 105, 110, 108, 112],
          [100, 99, 100, 100, 101]] : List (List ℚ)) 100
        (fun _ => 0)).risk_statistics.probability_of_profit = 667/10 := by
  with_unfolding_all decide

/-- C7 (counterexample): the claimed per-path max-drawdown-runs `[3, 0, 1]`
are wrong for the code's scan: path `[100, 90, 90, 90, 95]` stays below
100 for 4 consecutive steps (95 < 100 as well), so the runs are `[4, 0, 1]`. -/
theorem scenario_drawdown_runs_counterexample :
    maxDrawdownsVal
        ([[100, 90, 90, 90, 95], [100, 105, 110, 108, 112],
          [100, 99, 100, 100, 101]] : List (List ℚ)) 100 ≠ [3, 0, 1] := by
  with_unfolding_all decide

/-- C9: for a non-empty ensemble the CVaR tail filter always contains the
5th-percentile element itself, so `cvarValues` is non-empty, its length is
never a zero divisor, and the `: var95` fallback branch is unreachable —
the reported CVaR is always the tail mean. -/
theorem cvar_fallback_unreachable (paths : List (List α)) (h : paths ≠ []) :
    0 < (cvarValuesVal paths).length
    ∧ ∀ (s : α) (rng : ℕ → α),
        (computeStatsFromPaths paths s rng).risk_statistics.conditional_value_at_risk_95
          = jsToFixed 2 ((cvarValuesVal paths).sum / ((cvarValuesVal paths).length : α)) := by
  refine ⟨cvarValues_length_pos paths h, fun s rng => ?_⟩
  show jsToFixed 2 (cvar95Val paths) = _
  rw [cvar95Val, if_pos (cvarValues_length_pos paths h)]

theorem cvar_fallback_unreachable_witness :
    ([[100, 90]] : List (List ℚ)) ≠ []
    ∧ 0 < (cvarValuesVal ([[100, 90]] : List (List ℚ))).length :=
  ⟨by with_unfolding_all decide,
    (cvar_fallback_unreachable ([[100, 90]] : List (List ℚ))
      (by with_unfolding_all decide)).1⟩

/-- C10: on the valid ensemble `[[100, 100]]` every trimmed final price is
equal, the bin width is zero, and the JS bin-index computation divides by
that zero width (`NaN`); consequently no final price is counted into any
bin and the histogram counts sum to 0 rather than `N = 1`, even though
every final price lies within the trimmed range. -/
theorem degenerate_histogram_counts_zero :
    (computeStatsFromPaths ([[100, 100]] : List (List ℚ)) 100
        (fun _ => 0)).histogram_data.fpga_counts.sum = 0
    ∧ trimLowVal ([[100, 100]] : List (List ℚ)) = trimHighVal ([[100, 100]] : List (List ℚ))
    ∧ binWidthVal ([[100, 100]] : List (List ℚ)) = 0
    ∧ (∀ p ∈ finalPrices ([[100, 100]] : List (List ℚ)),
        trimLowVal ([[100, 100]] : List (List ℚ)) ≤ p
        ∧ p ≤ trimHighVal ([[100, 100]] : List (List ℚ)))
    ∧ ([[100, 100]] : List (List ℚ)).length = 1 := by
  with_unfolding_all decide

/-- A structurally valid raw-paths response passes all three checks. -/
lemma fetchRawPaths_ok (ticker : String) (ps : List (List α)) (apiTime : α)
    (rng : ℕ → α) (hps : ps.length ≠ 0) (hp0 : (ps.headD []).length ≠ 0) :
    fetchRawPaths ticker (.response true ⟨some ps⟩) apiTime rng
      = .ok (rawSuccessResult ticker ps apiTime rng) := by
  show (if ¬(true : Bool) = true then Except.error "status"
    else if ps.length = 0 then Except.error "Empty paths"
      else if (ps.headD []).length = 0 then Except.error "Empty paths"
        else Except.ok (rawSuccessResult ticker ps apiTime rng))
    = Except.ok (rawSuccessResult ticker ps apiTime rng)
  rw [if_neg (by simp), if_neg hps, if_neg hp0]

/-- C4: when the rich endpoint attempt fails (e.g. HTTP 404) and the
raw-paths endpoint succeeds with a structurally valid path array, the
strategy returns the raw-paths result: risk statistics, histogram and
drawdown distribution are computed client-side by the Statistics Engine
from the full returned ensemble (the raw payload carries no statistics to
pass through), and the performance timings satisfy `slow = 15 × fast`
where `fast = max(1, round(measured latency))`. -/
theorem raw_paths_fallback (ticker : String) (rich : NetOutcome (RichPayload α))
    (ps : List (List α)) (apiTime : α) (rng : ℕ → α)
    (expFn sqrtFn : α → α) (Z : ℕ → ℕ → α) (rngM : ℕ → α) (r1 r2 : α)
    (hrich : (fetchFull rich).isOk = false)
    (hps : ps.length ≠ 0) (hp0 : (ps.headD []).length ≠ 0) :
    fetchSimulationResults ticker rich (.response true ⟨some ps⟩) apiTime rng
        expFn sqrtFn Z rngM r1 r2
      = .ok (rawSuccessResult ticker ps apiTime rng)
    ∧ (rawSuccessResult ticker ps apiTime rng).simulation_results.risk_statistics
        = (computeStatsFromPaths ps ((ps.headD []).headD 0) rng).risk_statistics
    ∧ (rawSuccessResult ticker ps apiTime rng).simulation_results.histogram_data
        = (computeStatsFromPaths ps ((ps.headD []).headD 0) rng).histogram_data
    ∧ (rawSuccessResult ticker ps apiTime rng).simulation_results.drawdown_distribution
        = (computeStatsFromPaths ps ((ps.headD []).headD 0) rng).drawdown_distribution
    ∧ (rawSuccessResult ticker ps apiTime rng).simulation_results.performance.fpga_time_ms
        = ((max 1 (jsRound apiTime) : ℤ) : α)
    ∧ (rawSuccessResult ticker ps apiTime rng).simulation_results.performance.cpu_time_ms
        = 15 * (rawSuccessResult ticker ps apiTime
            rng).simulation_results.performance.fpga_time_ms := by
  refine ⟨?_, rfl, rfl, rfl, rfl, ?_⟩
  · cases hF : fetchFull rich with
    | ok r =>
      rw [hF] at hrich
      exact Bool.noConfusion hrich
    | error e =>
      unfold fetchSimulationResults
      rw [hF, fetchRawPaths_ok ticker ps apiTime rng hps hp0]
  · have hfpga : (rawSuccessResult ticker ps apiTime
        rng).simulation_results.performance.fpga_time_ms
        = ((max 1 (jsRound apiTime) : ℤ) : α) := rfl
    have hcpu : (rawSuccessResult ticker ps apiTime
        rng).simulation_results.performance.cpu_time_ms
        = ((jsRound (((max 1 (jsRound apiTime) : ℤ) : α) * 15) : ℤ) : α) := rfl
    have hcast : ((max 1 (jsRound apiTime) : ℤ) : α) * 15
        = ((15 * max 1 (jsRound apiTime) : ℤ) : α) := by
      push_cast
      ring
    rw [hfpga, hcpu, hcast, jsRound_intCast]
    push_cast
    ring

theorem raw_paths_fallback_witness :
    (fetchFull (α := ℚ) .transportError).isOk = false
    ∧ fetchSimulationResults "SPY" .transportError
        (.response true ⟨some ([[100, 105]] : List (List ℚ))⟩) 3
        (fun _ => 0) (fun _ => 1) (fun _ => 1) (fun _ _ => 0) (fun _ => 0) 0 0
      = .ok (rawSuccessResult "SPY" ([[100, 105]] : List (List ℚ)) 3 (fun _ => 0))
    ∧ (rawSuccessResult "SPY" ([[100, 105]] : List (List ℚ)) 3
        (fun _ => 0)).simulation_results.performance.cpu_time_ms
      = 15 * (rawSuccessResult "SPY" ([[100, 105]] : List (List ℚ)) 3
          (fun _ => 0)).simulation_results.performance.fpga_time_ms := by
  have h := raw_paths_fallback "SPY" (.transportError) ([[100, 105]] : List (List ℚ)) 3
    (fun _ => 0) (fun _ => 1) (fun _ => 1) (fun _ _ => 0) (fun _ => 0) 0 0
    rfl (by decide) (by decide)
  exact ⟨rfl, h.1, h.2.2.2.2.2⟩

/-- C1: the acquisition strategy always resolves with a result: any
failure of the rich attempt (transport error or non-ok status) or of the
raw-paths attempt (transport error, non-ok status, missing or empty path
list, zero-length first path) is caught and never propagated; the terminal
synthetic fallback `generateMockData` is a total function, and any ticker
outside the configuration table resolves to the default SPY
configuration. -/
theorem fetchSimulationResults_always_resolves (ticker : String)
    (rich : NetOutcome (RichPayload α)) (raw : NetOutcome (RawPayload α))
    (apiTime : α) (rng : ℕ → α) (expFn sqrtFn : α → α) (Z : ℕ → ℕ → α)
    (rngM : ℕ → α) (r1 r2 : α) :
    (∃ result, fetchSimulationResults ticker rich raw apiTime rng expFn sqrtFn Z rngM r1 r2
        = Except.ok result)
    ∧ (CONFIGS α ticker = none →
        (generateMockData expFn sqrtFn Z rngM r1 r2 ticker).simulation_results.name
            = "S&P 500 ETF"
        ∧ (generateMockData expFn sqrtFn Z rngM r1 r2 ticker).simulation_results.start_price
            = (19017/100 : α)) := by
  constructor
  · cases hF : fetchFull rich with
    | ok r => exact ⟨r, by simp [fetchSimulationResults, hF]⟩
    | error e =>
      cases hR : fetchRawPaths ticker raw apiTime rng with
      | ok r => exact ⟨r, by simp [fetchSimulationResults, hF, hR]⟩
      | error e2 =>
        exact ⟨generateMockData expFn sqrtFn Z rngM r1 r2 ticker,
          by simp [fetchSimulationResults, hF, hR]⟩
  · intro hnone
    refine ⟨?_, ?_⟩ <;> simp [generateMockData, hnone]

theorem fetchSimulationResults_always_resolves_witness :
    CONFIGS ℚ "ZZZ" = none
    ∧ (∃ result, fetchSimulationResults "ZZZ" .transportError .transportError (0 : ℚ)
        (fun _ => 0) (fun _ => 1) (fun _ => 1) (fun _ _ => 0) (fun _ => 0) 0 0
        = Except.ok result)
    ∧ (generateMockData (fun _ => (1 : ℚ)) (fun _ => 1) (fun _ _ => 0) (fun _ => 0) 0 0
        "ZZZ").simulation_results.name = "S&P 500 ETF" := by
  have hnone : CONFIGS ℚ "ZZZ" = none := rfl
  have h := fetchSimulationResults_always_resolves "ZZZ" .transportError .transportError
    (0 : ℚ) (fun _ => 0) (fun _ => 1) (fun _ => 1) (fun _ _ => 0) (fun _ => 0) 0 0
  exact ⟨hnone, h.1, (h.2 hnone).1⟩

lemma pathPrice_pos (S0 drift vol : ℝ) (Z : ℕ → ℝ) (hS0 : 0 < S0) :
    ∀ i, 0 < pathPrice Real.exp S0 drift vol Z i
  | 0 => hS0
  | i + 1 => mul_pos (pathPrice_pos S0 drift vol Z hS0 i) (Real.exp_pos _)

/-- C8: for every `S0 > 0`, `days ≥ 2`, `mu` and `sigma > 0`, and any
random source (streams `u v` of accepted uniforms after the
reject-at-zero loops), `generatePath` returns a path of length `days`
whose element 0 is exactly `S0`, all of whose prices are strictly
positive, each step multiplying the previous price by
`exp(drift_per_step + vol_per_step * Z)` with `Z` the Box–Muller
transform of the uniforms. -/
theorem generatePath_gbm (S0 : ℝ) (days : ℕ) (mu sigma : ℝ) (u v : ℕ → ℝ)
    (hS0 : 0 < S0) (hdays : 2 ≤ days) (hsigma : 0 < sigma) :
    (generatePath Real.exp Real.sqrt S0 days mu sigma
        (fun i => gaussRandom (u i) (v i))).length = days
    ∧ (generatePath Real.exp Real.sqrt S0 days mu sigma
        (fun i => gaussRandom (u i) (v i)))[0]? = some S0
    ∧ (∀ p ∈ generatePath Real.exp Real.sqrt S0 days mu sigma
        (fun i => gaussRandom (u i) (v i)), 0 < p)
    ∧ ∀ i : ℕ,
        pathPrice Real.exp S0 ((mu - 1/2 * sigma * sigma) * (1/252))
            (sigma * Real.sqrt (1/252)) (fun i => gaussRandom (u i) (v i)) (i + 1)
          = pathPrice Real.exp S0 ((mu - 1/2 * sigma * sigma) * (1/252))
              (sigma * Real.sqrt (1/252)) (fun i => gaussRandom (u i) (v i)) i
            * Real.exp ((mu - 1/2 * sigma * sigma) * (1/252)
                + sigma * Real.sqrt (1/252) * gaussRandom (u (i + 1)) (v (i + 1))) := by
  refine ⟨?_, ?_, ?_, fun i => rfl⟩
  · simp [generatePath]
  · rw [generatePath, List.getElem?_map, List.getElem?_range (by omega : 0 < days)]
    rfl
  · intro p hp
    rw [generatePath] at hp
    obtain ⟨i, _, rfl⟩ := List.mem_map.mp hp
    exact pathPrice_pos _ _ _ _ hS0 i

theorem generatePath_gbm_witness :
    (0 : ℝ) < 1
    ∧ (generatePath Real.exp Real.sqrt (1 : ℝ) 2 0 1
        (fun i => gaussRandom ((fun _ : ℕ => (1 : ℝ)) i) ((fun _ : ℕ => (1 : ℝ)) i))).length
      = 2 :=
  ⟨by norm_num,
    (generatePath_gbm 1 2 0 1 (fun _ => 1) (fun _ => 1) (by norm_num) (by norm_num)
      (by norm_num)).1⟩

end EOHFPGA
